import Mathlib

/-!
Verification of the estimation and rate-analytics engine of cctop.

Shallow embedding conventions:
- Go `int` is modelled as `ℤ`; Go `float64` arithmetic is modelled as exact
  arithmetic in `ℚ` (the program only ever combines small decimal constants,
  integer-derived values and divisions, far from any binade boundary relevant
  to the claims below).
- Timestamps (`time.Time`) are modelled as rational numbers of minutes;
  `time.Duration` subtraction followed by `.Minutes()` is then plain
  subtraction in `ℚ`.  RFC3339 parsing is out of scope: the string fields
  `StartTime` and `ActualEndTime` of a block are modelled as an exact time
  and an optional exact time.
- Go conversions `int(x)` from `float64` truncate toward zero; this is
  `goTrunc` below.  Go integer division truncates toward zero; this is
  `Int.tdiv`.
- Functions that sort a caller-supplied slice in place are additionally
  modelled in a state-passing style (`...Go` variants) returning the pair
  (result, contents of the caller slice after the call).
-/

/-- Go conversion `int(x)` from `float64`: truncation toward zero. -/
def goTrunc (q : ℚ) : ℤ := if q < 0 then -⌊-q⌋ else ⌊q⌋

-- Constants from the source (constants file): token limits.
def ProPlanMessages : ℤ := 45
def Max5PlanMessages : ℤ := 225
def Max20PlanMessages : ℤ := 900
def DefaultTokensPerMsg : ℤ := 150

-- Threshold constants.
def MinHistoricalSessions : ℕ := 5
def MinCleanedSessions : ℕ := 3
def OutlierIQRMultiplier : ℚ := 1.5
def HistoricalPercentile : ℚ := 90
def FallbackPercentile : ℚ := 85
def AccuracyWarningThreshold : ℚ := 10

-- Estimation weight constants.
def WeightSmallSample : ℚ := 0.3
def WeightMediumSample : ℚ := 0.5
def WeightLargeSample : ℚ := 0.8
def WeightHighVariance : ℚ := 0.4
def WeightMediumVariance : ℚ := 0.6

-- Statistical constants.
def VarianceCoefficientHigh : ℚ := 0.5
def VarianceCoefficientMedium : ℚ := 0.3
def RecentSessionsCount : ℕ := 10

-- Plan detection thresholds.
def Max20DetectionThreshold : ℤ := 100000
def Max5DetectionThreshold : ℤ := 25000

-- Time constants (in minutes).
def SessionDurationMinutes : ℚ := 300
def BurnRateWindowMinutes : ℚ := 60

/-- A `Block` from the ccusage JSON: one usage session.  Times in minutes
(see the module docstring); `actualEndTime := none` models the empty string. -/
structure Block where
  startTime : ℚ
  actualEndTime : Option ℚ
  totalTokens : ℤ
  entries : ℤ
  isActive : Bool
  isGap : Bool
deriving DecidableEq, Repr

/-- `BaseLimit` from estimator.go: official plan limits. -/
structure BaseLimit where
  messages : ℤ
  defaultTokensPerMsg : ℤ
deriving DecidableEq, Repr

/-- The `baseLimits` map of `TokenLimitEstimator` (estimator.go, constructor). -/
def baseLimits (plan : String) : Option BaseLimit :=
  if plan = "pro" then some ⟨ProPlanMessages, DefaultTokensPerMsg⟩
  else if plan = "max5" then some ⟨Max5PlanMessages, DefaultTokensPerMsg⟩
  else if plan = "max20" then some ⟨Max20PlanMessages, DefaultTokensPerMsg⟩
  else none

/-- Raw nearest-rank index of `calculatePercentile` before clamping:
`int(math.Ceil(float64(len(values))*percentile/100.0)) - 1`. -/
def percRawIndex (n : ℕ) (p : ℚ) : ℤ := ⌈(n : ℚ) * p / 100⌉ - 1

/-- The index of `calculatePercentile` after the two clamping steps
(`if index < 0 { index = 0 }` then `if index >= len { index = len - 1 }`). -/
def percClampedIndex (n : ℕ) (p : ℚ) : ℤ :=
  let index := percRawIndex n p
  let index := if index < 0 then 0 else index
  if (n : ℤ) ≤ index then (n : ℤ) - 1 else index

/-- `calculatePercentile` (estimator.go): 0 on the empty list, else the
element of the ascending sort at the clamped nearest-rank index.
The in-place sort performed by the Go code is modelled separately by
`calculatePercentileGo`. -/
def calculatePercentile (values : List ℤ) (percentile : ℚ) : ℤ :=
  if values.length = 0 then 0
  else (List.insertionSort (· ≤ ·) values).getD (percClampedIndex values.length percentile).toNat 0

/-- State-passing view of `calculatePercentile`: the Go function calls
`sort.Ints(values)` on the caller slice, so after the call the caller
slice holds the ascending sort of its previous contents (the early return
for the empty slice leaves the empty slice unchanged, and sorting an empty
slice is also the identity, so the state component needs no case split). -/
def calculatePercentileGo (values : List ℤ) (percentile : ℚ) : ℤ × List ℤ :=
  (calculatePercentile values percentile, List.insertionSort (· ≤ ·) values)

/-- `removeOutliers` (estimator.go): keep the values inside
`[q1 - int(1.5*iqr), q3 + int(1.5*iqr)]`, where q1 and q3 are the 25th and
75th nearest-rank percentiles of a sorted copy of the input. -/
def removeOutliers (values : List ℤ) : List ℤ :=
  if values.length < 4 then values
  else
    let sorted := List.insertionSort (· ≤ ·) values
    let q1 := calculatePercentile sorted 25
    let q3 := calculatePercentile sorted 75
    let iqr := q3 - q1
    let lowerBound := q1 - goTrunc (OutlierIQRMultiplier * (iqr : ℚ))
    let upperBound := q3 + goTrunc (OutlierIQRMultiplier * (iqr : ℚ))
    values.filter (fun v => decide (lowerBound ≤ v) && decide (v ≤ upperBound))

/-- State-passing view of `removeOutliers`: the Go function copies the input
before sorting, so the caller slice is returned unchanged. -/
def removeOutliersGo (values : List ℤ) : List ℤ × List ℤ :=
  (removeOutliers values, values)

/-- `CalculateTrimmedMean` (jsonl_reader.go).  The slice bounds are encoded
with `drop`/`take`; for the trim counts produced by the function these agree
with Go slicing. -/
def CalculateTrimmedMean (tokens : List ℤ) (trimPercent : ℚ) : ℤ :=
  if tokens.length = 0 then 0
  else
    let sorted := List.insertionSort (· ≤ ·) tokens
    let trimCount : ℤ := goTrunc ((sorted.length : ℚ) * trimPercent / 100)
    let trimCount := if trimCount = 0 ∧ 2 < sorted.length then 1 else trimCount
    if (sorted.length : ℤ) ≤ trimCount * 2 then sorted.getD (sorted.length / 2) 0
    else
      let trimmed := (sorted.drop trimCount.toNat).take (sorted.length - 2 * trimCount.toNat)
      Int.tdiv (trimmed.sum) (trimmed.length : ℤ)

/-- State-passing view of `CalculateTrimmedMean`: the Go function copies the
input before sorting, so the caller slice is returned unchanged. -/
def calculateTrimmedMeanGo (tokens : List ℤ) (trimPercent : ℚ) : ℤ × List ℤ :=
  (CalculateTrimmedMean tokens trimPercent, tokens)

/-- The loop filter of `estimateFromHistory` and `calculateDynamicWeight`:
`!block.IsGap && !block.IsActive && block.TotalTokens > 0`. -/
def historyQualifies (b : Block) : Bool :=
  !b.isGap && !b.isActive && decide (0 < b.totalTokens)

/-- `estimateFromHistory` (estimator.go). -/
def estimateFromHistory (blocks : List Block) : ℤ :=
  let sessionMaxTokens := (blocks.filter historyQualifies).map Block.totalTokens
  if sessionMaxTokens.length < MinHistoricalSessions then 0
  else
    let cleaned := removeOutliers sessionMaxTokens
    if cleaned.length < MinCleanedSessions then calculatePercentile sessionMaxTokens FallbackPercentile
    else calculatePercentile cleaned HistoricalPercentile

/-- `detectPlanFromHistory` (estimator.go): running maximum over complete
non-gap blocks, then two fixed thresholds. -/
def detectPlanFromHistory (blocks : List Block) : String :=
  let maxTokens := blocks.foldl
    (fun acc b => if !b.isGap && !b.isActive && decide (acc < b.totalTokens) then b.totalTokens else acc) 0
  if Max20DetectionThreshold < maxTokens then "max20"
  else if Max5DetectionThreshold < maxTokens then "max5"
  else "pro"

/-- The loop filter of `calculateAvgTokensPerMessage`:
`!block.IsGap && !block.IsActive && block.Entries > 0`. -/
def avgQualifies (b : Block) : Bool :=
  !b.isGap && !b.isActive && decide (0 < b.entries)

/-- The blocks visited by `calculateAvgTokensPerMessage`: the loop walks the
slice from its last element backward and stops after `RecentSessionsCount`
qualifying blocks. -/
def recentCompleteBlocks (blocks : List Block) : List Block :=
  (blocks.reverse.filter avgQualifies).take RecentSessionsCount

/-- `calculateAvgTokensPerMessage` (estimator.go): the quotient of the token
sum by the entry sum over the recent qualifying blocks (Go integer
division), 0 when the entry sum is 0. -/
def calculateAvgTokensPerMessage (blocks : List Block) : ℤ :=
  let recent := recentCompleteBlocks blocks
  let totalTokens := (recent.map Block.totalTokens).sum
  let totalEntries := (recent.map Block.entries).sum
  if totalEntries = 0 then 0 else Int.tdiv totalTokens totalEntries

/-- `calculateBaseLimit` (estimator.go). -/
def calculateBaseLimit (plan : String) (blocks : List Block) : ℤ :=
  let plan := if plan = "auto" then detectPlanFromHistory blocks else plan
  let base := (baseLimits plan).getD ⟨ProPlanMessages, DefaultTokensPerMsg⟩
  let avgTokensPerMsg := calculateAvgTokensPerMessage blocks
  if 0 < avgTokensPerMsg then base.messages * avgTokensPerMsg
  else base.messages * base.defaultTokensPerMsg

/-- `calculateDynamicWeight` (estimator.go).  The source compares
`cv = sqrt(variance)/mean` against 0.5 and 0.3; since `mean > 0` on the
branch where this happens (at least 20 samples, each positive, so the
integer mean is at least 1), `cv > c` is equivalent to
`variance > c^2 * mean^2`, which is how the comparison is phrased here to
keep the definition inside `ℚ`. -/
def calculateDynamicWeight (blocks : List Block) : ℚ :=
  let sessionTokens := (blocks.filter historyQualifies).map Block.totalTokens
  let sampleSize := sessionTokens.length
  if sampleSize < 10 then WeightSmallSample
  else if sampleSize < 20 then WeightMediumSample
  else if 1 < sessionTokens.length then
    let mean := Int.tdiv sessionTokens.sum (sessionTokens.length : ℤ)
    let variance := ((sessionTokens.map (fun v => ((v - mean : ℤ) : ℚ) ^ 2)).sum) / (sessionTokens.length : ℚ)
    if VarianceCoefficientHigh ^ 2 * ((mean : ℚ)) ^ 2 < variance then WeightHighVariance
    else if VarianceCoefficientMedium ^ 2 * ((mean : ℚ)) ^ 2 < variance then WeightMediumVariance
    else WeightLargeSample
  else WeightLargeSample

/-- `EstimateLimit` (estimator.go): hybrid of the data-driven estimate and
the official base limit; the Go conversion `int(...)` of the blended
`float64` truncates toward zero. -/
def EstimateLimit (plan : String) (blocks : List Block) : ℤ :=
  let dynamicLimit := estimateFromHistory blocks
  if 0 < dynamicLimit then
    let baseLimit := calculateBaseLimit plan blocks
    if 0 < baseLimit then
      let weight := calculateDynamicWeight blocks
      goTrunc ((dynamicLimit : ℚ) * weight + (baseLimit : ℚ) * (1 - weight))
    else dynamicLimit
  else calculateBaseLimit plan blocks

/-- `calculateDeviation` (estimator.go). -/
def calculateDeviation (actual estimated : ℤ) : ℚ :=
  if estimated = 0 then 0
  else ((actual : ℚ) - (estimated : ℚ)) / (estimated : ℚ) * 100

/-- `formatAccuracyWarning` (estimator.go).  The numeric `%.1f` payload of
the message is abstracted away; only the message text matters for the
claims, which are about emptiness of the result. -/
def formatAccuracyWarning (deviation : ℚ) (isAverage : Bool) : String :=
  if AccuracyWarningThreshold < |deviation| then
    if isAverage then "Warning: Token limit estimation may be inaccurate (avg deviation)"
    else "Warning: Token limit estimation may be inaccurate (deviation)"
  else ""

/-- `GetAccuracyReport` (estimator.go). -/
def GetAccuracyReport (_plan : String) (actualTokens estimatedLimit : ℤ) : String :=
  if estimatedLimit = 0 then ""
  else formatAccuracyWarning (calculateDeviation actualTokens estimatedLimit) false

/-- `getBlockEndTime` (burn rate calculator): the current time for the
active block, else the parsed actual end time when present, else the
current time as a fallback. -/
def getBlockEndTime (b : Block) (currentTime : ℚ) : ℚ :=
  if b.isActive then currentTime
  else
    match b.actualEndTime with
    | some endTime => endTime
    | none => currentTime

/-- `calculateBlockTokensInWindow` (burn rate calculator): the fraction of
the tokens of a block proportional to the overlap of its span with the
trailing window. -/
def calculateBlockTokensInWindow (b : Block) (windowEnd windowStart : ℚ) : ℚ :=
  let blockStart := b.startTime
  let blockEnd := getBlockEndTime b windowEnd
  if blockEnd < windowStart then 0
  else
    let overlapStart := max blockStart windowStart
    let overlapEnd := min blockEnd windowEnd
    if overlapEnd ≤ overlapStart then 0
    else
      let totalDuration := blockEnd - blockStart
      let overlapDuration := overlapEnd - overlapStart
      if 0 < totalDuration then (b.totalTokens : ℚ) * (overlapDuration / totalDuration)
      else 0

/-- `BurnRateCalculator.Calculate`: tokens per minute over the trailing
one-hour window. -/
def BurnRateCalculator.Calculate (blocks : List Block) (currentTime : ℚ) : ℚ :=
  if blocks.length = 0 then 0
  else
    let windowStart := currentTime - BurnRateWindowMinutes
    let totalTokens :=
      (blocks.map (fun b => if b.isGap then 0 else calculateBlockTokensInWindow b currentTime windowStart)).sum
    totalTokens / BurnRateWindowMinutes

/-- `TokenMetrics` (session). -/
structure TokenMetrics where
  used : ℤ
  limit : ℤ
  percentage : ℚ
  remaining : ℤ
deriving DecidableEq, Repr

/-- `TimeMetrics` (session). -/
structure TimeMetrics where
  sessionEndTime : ℚ
  minutesRemaining : ℚ
  progressPercentage : ℚ
deriving DecidableEq, Repr

/-- `SessionMetrics` (session). -/
structure SessionMetrics where
  time : TimeMetrics
  tokens : TokenMetrics
deriving DecidableEq, Repr

/-- `Session` (session file).  The display-only fields (models, cost) that
come from external processes are reduced to the ones the analyzed claims
mention; `todayCost` is an opaque input. -/
structure Session where
  startTime : ℚ
  endTime : ℚ
  block : Block
  allBlocks : List Block
  metrics : SessionMetrics
  burnRate : ℚ
  todayCost : ℚ
deriving DecidableEq, Repr

/-- `Session.calculateTokenMetrics`. -/
def calculateTokenMetrics (b : Block) (limit : ℤ) : TokenMetrics :=
  { used := b.totalTokens
    limit := limit
    percentage := if 0 < limit then ((b.totalTokens : ℚ) / (limit : ℚ)) * 100 else 0
    remaining := limit - b.totalTokens }

/-- `Session.calculateTimeMetrics`. -/
def calculateTimeMetrics (startTime endTime currentTime : ℚ) : TimeMetrics :=
  let elapsedMinutes := currentTime - startTime
  let remainingMinutes := endTime - currentTime
  let remainingMinutes := if remainingMinutes < 0 then 0 else remainingMinutes
  let progressPercentage := elapsedMinutes / SessionDurationMinutes * 100
  let progressPercentage :=
    if progressPercentage < 0 then 0
    else if 100 < progressPercentage then 100 else progressPercentage
  { sessionEndTime := endTime
    minutesRemaining := remainingMinutes
    progressPercentage := progressPercentage }

/-- `NewSession`: builds the session from the active block.  The fetched
daily cost is an opaque input here (the Go code obtains it from an external
process). -/
def NewSession (block : Block) (allBlocks : List Block) (tokenLimit : ℤ)
    (currentTime todayCost : ℚ) : Session :=
  let startTime := block.startTime
  let endTime := startTime + SessionDurationMinutes
  { startTime := startTime
    endTime := endTime
    block := block
    allBlocks := allBlocks
    burnRate := BurnRateCalculator.Calculate allBlocks currentTime
    todayCost := todayCost
    metrics :=
      { tokens := calculateTokenMetrics block tokenLimit
        time := calculateTimeMetrics startTime endTime currentTime } }

/-- `Session.GetPredictedEndTime`.  In the Go code the float minutes to
depletion are converted through `time.Duration(...)`, which truncates the
`float64` toward zero, and then multiplied by `time.Minute`: the session
advances by that whole number of minutes. -/
def GetPredictedEndTime (s : Session) (currentTime : ℚ) : ℚ :=
  if 0 < s.burnRate ∧ 0 < s.metrics.tokens.remaining then
    currentTime + (goTrunc ((s.metrics.tokens.remaining : ℚ) / s.burnRate) : ℚ)
  else s.endTime

/-- `Session.GetStatus`.  The Go method reads the wall clock for the
prediction; that time is an explicit argument here. -/
def GetStatus (s : Session) (now : ℚ) : String :=
  if s.metrics.tokens.limit < s.metrics.tokens.used then "LIMIT EXCEEDED"
  else if GetPredictedEndTime s now < s.endTime then "WARNING"
  else "OK"

/-! ### Helper lemmas about the statistical primitives -/

lemma goTrunc_of_nonneg {q : ℚ} (h : 0 ≤ q) : goTrunc q = ⌊q⌋ := by
  unfold goTrunc
  rw [if_neg (not_lt.mpr h)]

lemma goTrunc_eval {q : ℚ} {c : ℤ} (h0 : 0 ≤ q) (h1 : (c : ℚ) ≤ q) (h2 : q < (c : ℚ) + 1) :
    goTrunc q = c := by
  rw [goTrunc_of_nonneg h0]
  exact Int.floor_eq_iff.mpr ⟨h1, by exact_mod_cast h2⟩

lemma one_le_goTrunc {q : ℚ} (h : 1 ≤ q) : 1 ≤ goTrunc q := by
  rw [goTrunc_of_nonneg (le_trans zero_le_one h)]
  exact Int.le_floor.mpr (by exact_mod_cast h)

lemma percClampedIndex_nonneg (n : ℕ) (p : ℚ) (h : 1 ≤ n) : 0 ≤ percClampedIndex n p := by
  unfold percClampedIndex
  dsimp only
  split_ifs <;> omega

lemma percClampedIndex_lt (n : ℕ) (p : ℚ) (h : 1 ≤ n) : percClampedIndex n p < (n : ℤ) := by
  unfold percClampedIndex
  dsimp only
  split_ifs <;> omega

lemma percRawIndex_mono (n : ℕ) {p q : ℚ} (hpq : p ≤ q) : percRawIndex n p ≤ percRawIndex n q := by
  unfold percRawIndex
  have h : (⌈(n : ℚ) * p / 100⌉ : ℤ) ≤ ⌈(n : ℚ) * q / 100⌉ := by
    gcongr
  omega

lemma percClampedIndex_mono (n : ℕ) {p q : ℚ} (hpq : p ≤ q) :
    percClampedIndex n p ≤ percClampedIndex n q := by
  have h := percRawIndex_mono n hpq
  unfold percClampedIndex
  dsimp only
  split_ifs <;> omega

lemma sorted_getD_mono (l : List ℤ) {i j : ℕ} (hij : i ≤ j)
    (hj : j < (List.insertionSort (· ≤ ·) l).length) :
    (List.insertionSort (· ≤ ·) l).getD i 0 ≤ (List.insertionSort (· ≤ ·) l).getD j 0 := by
  have hs : List.Sorted (· ≤ ·) (List.insertionSort (· ≤ ·) l) :=
    List.sorted_insertionSort (· ≤ ·) l
  have hi : i < (List.insertionSort (· ≤ ·) l).length := lt_of_le_of_lt hij hj
  rw [List.getD_eq_getElem _ _ hi, List.getD_eq_getElem _ _ hj]
  rcases eq_or_lt_of_le hij with h | h
  · subst h; rfl
  · have := List.pairwise_iff_get.mp hs ⟨i, hi⟩ ⟨j, hj⟩ h
    simpa [List.get_eq_getElem] using this

lemma length_insertionSort (l : List ℤ) :
    (List.insertionSort (· ≤ ·) l).length = l.length :=
  (List.perm_insertionSort (· ≤ ·) l).length_eq

lemma calculatePercentile_eval {l : List ℤ} {p : ℚ} {i : ℤ}
    (hne : l.length ≠ 0) (hidx : percClampedIndex l.length p = i) :
    calculatePercentile l p = (List.insertionSort (· ≤ ·) l).getD i.toNat 0 := by
  unfold calculatePercentile
  rw [if_neg hne, hidx]

lemma calculatePercentile_concrete {l : List ℤ} {p : ℚ} {c r : ℤ}
    (hne : l.length ≠ 0)
    (h1 : (c : ℚ) - 1 < (l.length : ℚ) * p / 100) (h2 : (l.length : ℚ) * p / 100 ≤ (c : ℚ))
    (h0 : 0 < c) (hn : c ≤ (l.length : ℤ))
    (hres : (List.insertionSort (· ≤ ·) l).getD (c - 1).toNat 0 = r) :
    calculatePercentile l p = r := by
  have hraw : percRawIndex l.length p = c - 1 := by
    unfold percRawIndex
    rw [Int.ceil_eq_iff.mpr ⟨by linarith, h2⟩]
  have hidx : percClampedIndex l.length p = c - 1 := by
    unfold percClampedIndex
    dsimp only
    rw [hraw]
    split_ifs <;> omega
  rw [calculatePercentile_eval hne hidx, hres]

lemma calculatePercentile_mem {l : List ℤ} (h : l ≠ []) (p : ℚ) :
    calculatePercentile l p ∈ l := by
  have hn : l.length ≠ 0 := fun hc => h (List.length_eq_zero.mp hc)
  have h1 : 1 ≤ l.length := Nat.one_le_iff_ne_zero.mpr hn
  have hidx : (percClampedIndex l.length p).toNat < (List.insertionSort (· ≤ ·) l).length := by
    rw [length_insertionSort]
    have ha := percClampedIndex_lt l.length p h1
    have hb := percClampedIndex_nonneg l.length p h1
    omega
  unfold calculatePercentile
  rw [if_neg hn, List.getD_eq_getElem _ _ hidx]
  exact (List.perm_insertionSort (· ≤ ·) l).mem_iff.mp (List.getElem_mem hidx)

lemma calculatePercentile_mono (l : List ℤ) {p q : ℚ} (hpq : p ≤ q) :
    calculatePercentile l p ≤ calculatePercentile l q := by
  unfold calculatePercentile
  by_cases hn : l.length = 0
  · simp [hn]
  · rw [if_neg hn, if_neg hn]
    have h1 : 1 ≤ l.length := Nat.one_le_iff_ne_zero.mpr hn
    have ha := percClampedIndex_nonneg l.length p h1
    have hb := percClampedIndex_nonneg l.length q h1
    have hc := percClampedIndex_lt l.length q h1
    have hm := percClampedIndex_mono l.length hpq
    apply sorted_getD_mono
    · omega
    · rw [length_insertionSort]; omega

lemma insertionSort_idem (l : List ℤ) :
    List.insertionSort (· ≤ ·) (List.insertionSort (· ≤ ·) l) = List.insertionSort (· ≤ ·) l :=
  (List.sorted_insertionSort (· ≤ ·) l).insertionSort_eq

lemma calculatePercentile_insertionSort (l : List ℤ) (p : ℚ) :
    calculatePercentile (List.insertionSort (· ≤ ·) l) p = calculatePercentile l p := by
  unfold calculatePercentile
  rw [length_insertionSort, insertionSort_idem]

lemma percClampedIndex_eq_clamp (n : ℕ) (p : ℚ) (h : 1 ≤ n) :
    percClampedIndex n p = max 0 (min (⌈(n : ℚ) * p / 100⌉ - 1) ((n : ℤ) - 1)) := by
  unfold percClampedIndex percRawIndex
  dsimp only
  split_ifs <;> omega

lemma percentile_zero_isMin (l : List ℤ) (h : l ≠ []) :
    calculatePercentile l 0 ∈ l ∧ ∀ x ∈ l, calculatePercentile l 0 ≤ x := by
  have hn : l.length ≠ 0 := fun hc => h (List.length_eq_zero.mp hc)
  have h1 : 1 ≤ l.length := Nat.one_le_iff_ne_zero.mpr hn
  have hraw : percRawIndex l.length 0 = -1 := by
    unfold percRawIndex
    simp
  have hidx : percClampedIndex l.length 0 = 0 := by
    unfold percClampedIndex
    dsimp only
    rw [hraw]
    split_ifs <;> omega
  rw [calculatePercentile_eval hn hidx]
  obtain ⟨a, t, hat⟩ := List.exists_cons_of_ne_nil (l := List.insertionSort (· ≤ ·) l) (by
    intro hc
    apply hn
    have hl := length_insertionSort l
    rw [hc] at hl
    simpa using hl.symm)
  have hsorted := List.sorted_insertionSort (· ≤ ·) l
  rw [hat] at hsorted
  have hmin : ∀ b ∈ t, a ≤ b := (List.sorted_cons.mp hsorted).1
  have hperm := List.perm_insertionSort (· ≤ ·) l
  rw [hat] at hperm
  rw [hat]
  simp only [Int.toNat_zero, List.getD_cons_zero]
  constructor
  · exact hperm.mem_iff.mp (List.mem_cons_self a t)
  · intro x hx
    rcases List.mem_cons.mp (hperm.symm.mem_iff.mp hx) with hcase | hcase
    · exact le_of_eq hcase.symm
    · exact hmin x hcase

/-- Claim C3: for every non-empty integer list and every percentile p,
`calculatePercentile` returns the element of the ascending sort at index
`ceil(n*p/100) - 1` clamped to `[0, n-1]`; it returns 0 on the empty list;
and on `[1,2,3,4,5]` at p=50 it returns 3. -/
theorem claim_C3 :
    (∀ p : ℚ, calculatePercentile [] p = 0) ∧
    (∀ (xs : List ℤ) (p : ℚ), xs ≠ [] →
      calculatePercentile xs p =
        (List.insertionSort (· ≤ ·) xs).getD
          (max 0 (min (⌈(xs.length : ℚ) * p / 100⌉ - 1) ((xs.length : ℤ) - 1))).toNat 0) ∧
    calculatePercentile [1, 2, 3, 4, 5] 50 = 3 := by
  refine ⟨fun p => rfl, fun xs p hxs => ?_, ?_⟩
  · have hn : xs.length ≠ 0 := fun hc => hxs (List.length_eq_zero.mp hc)
    have h1 : 1 ≤ xs.length := Nat.one_le_iff_ne_zero.mpr hn
    exact calculatePercentile_eval hn (percClampedIndex_eq_clamp xs.length p h1)
  · exact calculatePercentile_concrete (c := 3) (by decide) (by norm_num) (by norm_num)
      (by norm_num) (by norm_num) (by decide)

/-- Witness for claim C3: the non-empty clause applied at `[1,2]`, p=50. -/
theorem claim_C3_witness :
    calculatePercentile [1, 2] 50 =
      (List.insertionSort (· ≤ ·) ([1, 2] : List ℤ)).getD
        (max 0 (min (⌈((([1, 2] : List ℤ).length : ℕ) : ℚ) * 50 / 100⌉ - 1)
          ((([1, 2] : List ℤ).length : ℤ) - 1))).toNat 0 :=
  claim_C3.2.1 [1, 2] 50 (by simp)

/-- Claim C7 as stated is false: the claim asserts the existence of a
non-empty list whose 0th percentile is not its minimum, but the clamped
index at p=0 is always 0 and the head of the ascending sort is the minimum.
This theorem proves the negation of the claimed existence. -/
theorem claim_C7_counterexample :
    ¬ ∃ xs : List ℤ, xs ≠ [] ∧
      ¬ (calculatePercentile xs 0 ∈ xs ∧ ∀ x ∈ xs, calculatePercentile xs 0 ≤ x) := by
  rintro ⟨xs, hne, hnot⟩
  exact hnot (percentile_zero_isMin xs hne)

/-- Claim C7 amended: for every non-empty list xs, `calculatePercentile xs 0`
IS guaranteed to be the minimum element of xs: the raw index
`ceil(0) - 1 = -1` is clamped to 0 and the ascending sort starts with the
minimum. -/
theorem claim_C7_amended (xs : List ℤ) (h : xs ≠ []) :
    calculatePercentile xs 0 ∈ xs ∧ ∀ x ∈ xs, calculatePercentile xs 0 ≤ x :=
  percentile_zero_isMin xs h

/-- Witness for the amended claim C7 at the concrete list `[3,1,2]`. -/
theorem claim_C7_witness :
    calculatePercentile [3, 1, 2] 0 ∈ ([3, 1, 2] : List ℤ) ∧
      ∀ x ∈ ([3, 1, 2] : List ℤ), calculatePercentile [3, 1, 2] 0 ≤ x :=
  claim_C7_amended [3, 1, 2] (by simp)

lemma le_sub_floor_iff {q1 v : ℤ} {x : ℚ} : (q1 - ⌊x⌋ ≤ v) ↔ ((q1 : ℚ) - x ≤ (v : ℚ)) := by
  constructor
  · intro h
    have h2 : q1 - v ≤ ⌊x⌋ := by omega
    have h3 := Int.le_floor.mp h2
    push_cast at h3
    linarith
  · intro h
    have h2 : ((q1 - v : ℤ) : ℚ) ≤ x := by push_cast; linarith
    have h3 := Int.le_floor.mpr h2
    omega

lemma le_add_floor_iff {q3 v : ℤ} {x : ℚ} : (v ≤ q3 + ⌊x⌋) ↔ ((v : ℚ) ≤ (q3 : ℚ) + x) := by
  constructor
  · intro h
    have h2 : v - q3 ≤ ⌊x⌋ := by omega
    have h3 := Int.le_floor.mp h2
    push_cast at h3
    linarith
  · intro h
    have h2 : ((v - q3 : ℤ) : ℚ) ≤ x := by push_cast; linarith
    have h3 := Int.le_floor.mpr h2
    omega

/-- Claim C4: `removeOutliers` is the identity for fewer than 4 values; for
at least 4 values it is exactly the order-preserving subsequence of the
input whose elements lie inclusively inside
`[Q1 - 1.5*IQR, Q3 + 1.5*IQR]`, with Q1 and Q3 the 25th and 75th
nearest-rank percentiles of the input and `IQR = Q3 - Q1`; and the result
is never longer than the input. -/
theorem claim_C4 (values : List ℤ) :
    (values.length < 4 → removeOutliers values = values) ∧
    (4 ≤ values.length →
      removeOutliers values =
        values.filter (fun (v : ℤ) =>
          decide ((calculatePercentile values 25 : ℚ) -
              3 / 2 * ((calculatePercentile values 75 : ℚ) - (calculatePercentile values 25 : ℚ)) ≤ (v : ℚ)) &&
          decide ((v : ℚ) ≤ (calculatePercentile values 75 : ℚ) +
              3 / 2 * ((calculatePercentile values 75 : ℚ) - (calculatePercentile values 25 : ℚ))))) ∧
    (removeOutliers values).Sublist values ∧
    (removeOutliers values).length ≤ values.length := by
  have hsub : (removeOutliers values).Sublist values := by
    unfold removeOutliers
    split_ifs
    · exact List.Sublist.refl values
    · exact List.filter_sublist values
  refine ⟨fun h => ?_, fun h => ?_, hsub, hsub.length_le⟩
  · unfold removeOutliers
    rw [if_pos h]
  · unfold removeOutliers
    rw [if_neg (not_lt.mpr h)]
    simp only [calculatePercentile_insertionSort]
    set q1 := calculatePercentile values 25 with hq1
    set q3 := calculatePercentile values 75 with hq3
    have hq : q1 ≤ q3 := calculatePercentile_mono values (by norm_num)
    have hxnn : 0 ≤ OutlierIQRMultiplier * ((q3 - q1 : ℤ) : ℚ) := by
      apply mul_nonneg
      · norm_num [OutlierIQRMultiplier]
      · exact_mod_cast sub_nonneg.mpr hq
    have hx : OutlierIQRMultiplier * ((q3 - q1 : ℤ) : ℚ) =
        3 / 2 * ((q3 : ℚ) - (q1 : ℚ)) := by
      push_cast
      norm_num [OutlierIQRMultiplier]
    apply List.filter_congr
    intro v _
    have hA : (q1 - goTrunc (OutlierIQRMultiplier * ((q3 - q1 : ℤ) : ℚ)) ≤ v) ↔
        ((q1 : ℚ) - 3 / 2 * ((q3 : ℚ) - (q1 : ℚ)) ≤ (v : ℚ)) := by
      rw [goTrunc_of_nonneg hxnn, ← hx]
      exact le_sub_floor_iff
    have hB : (v ≤ q3 + goTrunc (OutlierIQRMultiplier * ((q3 - q1 : ℤ) : ℚ))) ↔
        ((v : ℚ) ≤ (q3 : ℚ) + 3 / 2 * ((q3 : ℚ) - (q1 : ℚ))) := by
      rw [goTrunc_of_nonneg hxnn, ← hx]
      exact le_add_floor_iff
    rw [decide_eq_decide.mpr hA, decide_eq_decide.mpr hB]

/-- Witness for claim C4: the at-least-4 clause applied at `[1,2,3,100]`. -/
theorem claim_C4_witness :
    removeOutliers [1, 2, 3, 100] =
      ([1, 2, 3, 100] : List ℤ).filter (fun (v : ℤ) =>
        decide ((calculatePercentile [1, 2, 3, 100] 25 : ℚ) -
            3 / 2 * ((calculatePercentile [1, 2, 3, 100] 75 : ℚ) -
              (calculatePercentile [1, 2, 3, 100] 25 : ℚ)) ≤ (v : ℚ)) &&
        decide ((v : ℚ) ≤ (calculatePercentile [1, 2, 3, 100] 75 : ℚ) +
            3 / 2 * ((calculatePercentile [1, 2, 3, 100] 75 : ℚ) -
              (calculatePercentile [1, 2, 3, 100] 25 : ℚ)))) :=
  (claim_C4 [1, 2, 3, 100]).2.1 (by decide)

-- Named plan strings used in concrete instances.
def proPlanName : String := "pro"

/-- Claim C8 as stated is false: `calculatePercentile` sorts the caller
slice in place (`sort.Ints(values)`), so the caller slice is NOT left
unchanged: on `[2,1]` it holds `[1,2]` after the call. -/
theorem claim_C8_counterexample :
    (calculatePercentileGo [2, 1] 50).2 = [1, 2] ∧
    (calculatePercentileGo [2, 1] 50).2 ≠ [2, 1] := by
  constructor <;> decide

/-- Claim C8 amended: `removeOutliers` and `CalculateTrimmedMean` do not
mutate the caller slice (they sort a copy), and their results agree with
the value-level definitions; `calculatePercentile`, however, leaves the
caller slice sorted ascending — a permutation of the input holding the same
elements, but not in the original order in general. -/
theorem claim_C8_amended (values tokens : List ℤ) (p tp : ℚ) :
    (removeOutliersGo values).2 = values ∧
    (calculateTrimmedMeanGo tokens tp).2 = tokens ∧
    (calculatePercentileGo values p).2 = List.insertionSort (· ≤ ·) values ∧
    (calculatePercentileGo values p).2.Perm values ∧
    (calculatePercentileGo values p).1 = calculatePercentile values p ∧
    (removeOutliersGo values).1 = removeOutliers values ∧
    (calculateTrimmedMeanGo tokens tp).1 = CalculateTrimmedMean tokens tp :=
  ⟨rfl, rfl, rfl, List.perm_insertionSort (· ≤ ·) values, rfl, rfl, rfl⟩

/-- Claim C9 as stated is false at a negative estimated ceiling: with
actual 0 and estimated -100 the code emits a warning (it takes the absolute
value of the deviation), while the claimed condition
`|actual - estimated| / estimated > 10%` is negative and therefore false. -/
theorem claim_C9_counterexample :
    GetAccuracyReport proPlanName 0 (-100) ≠ "" ∧
    ¬ (1 / 10 < |(0 : ℚ) - ((-100 : ℤ) : ℚ)| / ((-100 : ℤ) : ℚ)) := by
  constructor
  · unfold GetAccuracyReport formatAccuracyWarning calculateDeviation AccuracyWarningThreshold
    norm_num
    decide
  · norm_num

/-- Claim C9 amended: `GetAccuracyReport` returns a non-empty message iff
the estimated ceiling is non-zero and `|actual - estimated| / |estimated|`
exceeds 10% (the denominator must be taken in absolute value, matching the
absolute deviation used by the code). -/
theorem claim_C9_amended (plan : String) (actual estimated : ℤ) :
    GetAccuracyReport plan actual estimated ≠ "" ↔
      estimated ≠ 0 ∧ 1 / 10 < |(actual : ℚ) - (estimated : ℚ)| / |(estimated : ℚ)| := by
  unfold GetAccuracyReport formatAccuracyWarning calculateDeviation
  by_cases he : estimated = 0
  · simp [he]
  · rw [if_neg he, if_neg he]
    have hiff : AccuracyWarningThreshold < |((actual : ℚ) - (estimated : ℚ)) / (estimated : ℚ) * 100| ↔
        1 / 10 < |(actual : ℚ) - (estimated : ℚ)| / |(estimated : ℚ)| := by
      unfold AccuracyWarningThreshold
      rw [abs_mul, abs_div, abs_of_nonneg (by norm_num : (0 : ℚ) ≤ 100)]
      constructor <;> intro h <;> linarith
    simp only [Bool.false_eq_true, if_false]
    split_ifs with hc
    · exact iff_of_true (by decide) ⟨he, hiff.mp hc⟩
    · exact iff_of_false (by simp) fun hcontra => hc (hiff.mpr hcontra.2)

-- Concrete blocks refuting claim C2: ratios 10/1 and 1/10.
def c2Blocks : List Block :=
  [⟨0, none, 10, 1, false, false⟩, ⟨0, none, 1, 10, false, false⟩]

/-- Claim C2 as stated is false: the per-item rate is the ratio of sums,
not the mean of the per-interval ratios.  On two intervals with
(consumed, items) = (10,1) and (1,10) the code computes (10+1)/(1+10) = 1,
while the arithmetic mean of the two ratios is 5.05 (or 5 with integer
ratios); the reference estimate for the pro tier is 45 * 1 = 45. -/
theorem claim_C2_counterexample :
    calculateAvgTokensPerMessage c2Blocks = 1 ∧
    ((10 : ℚ) / 1 + 1 / 10) / 2 ≠ (1 : ℚ) ∧
    (Int.tdiv 10 1 + Int.tdiv 1 10) / 2 ≠ (1 : ℤ) ∧
    calculateBaseLimit proPlanName c2Blocks = 45 := by
  refine ⟨by decide, by norm_num, by decide, by decide⟩

/-- Claim C2 amended: the per-item rate used in the reference estimate is
the Go integer quotient of the summed consumption by the summed item count
over the most recent 10 non-gap non-active intervals with a positive item
count (taken from the most recent backward); the reference estimate
multiplies the tier allowance by that quotient when it is positive and by
the configured default per-item value otherwise (in particular when no
qualifying interval exists). -/
theorem claim_C2_amended (plan : String) (blocks : List Block) :
    recentCompleteBlocks blocks = (blocks.reverse.filter avgQualifies).take 10 ∧
    calculateAvgTokensPerMessage blocks =
      (if ((recentCompleteBlocks blocks).map Block.entries).sum = 0 then 0
       else Int.tdiv ((recentCompleteBlocks blocks).map Block.totalTokens).sum
         (((recentCompleteBlocks blocks).map Block.entries).sum)) ∧
    calculateBaseLimit plan blocks =
      ((baseLimits (if plan = "auto" then detectPlanFromHistory blocks else plan)).getD
          ⟨ProPlanMessages, DefaultTokensPerMsg⟩).messages *
        (if 0 < calculateAvgTokensPerMessage blocks then calculateAvgTokensPerMessage blocks
         else ((baseLimits (if plan = "auto" then detectPlanFromHistory blocks else plan)).getD
            ⟨ProPlanMessages, DefaultTokensPerMsg⟩).defaultTokensPerMsg) := by
  refine ⟨rfl, rfl, ?_⟩
  unfold calculateBaseLimit
  dsimp only
  split_ifs <;> rfl

lemma baseLimit_fields_pos (plan : String) :
    0 < ((baseLimits plan).getD ⟨ProPlanMessages, DefaultTokensPerMsg⟩).messages ∧
    0 < ((baseLimits plan).getD ⟨ProPlanMessages, DefaultTokensPerMsg⟩).defaultTokensPerMsg := by
  unfold baseLimits
  split_ifs <;> decide

lemma calculateBaseLimit_pos (plan : String) (blocks : List Block) :
    0 < calculateBaseLimit plan blocks := by
  unfold calculateBaseLimit
  dsimp only
  split_ifs <;>
    first
      | exact mul_pos (baseLimit_fields_pos _).1 ‹0 < calculateAvgTokensPerMessage blocks›
      | exact mul_pos (baseLimit_fields_pos _).1 (baseLimit_fields_pos _).2

lemma calculateDynamicWeight_bounds (blocks : List Block) :
    0 ≤ calculateDynamicWeight blocks ∧ calculateDynamicWeight blocks ≤ 1 := by
  unfold calculateDynamicWeight
  dsimp only
  split_ifs <;> constructor <;>
    norm_num [WeightSmallSample, WeightMediumSample, WeightLargeSample,
      WeightHighVariance, WeightMediumVariance]

/-- Claim C1 amended: on the data-driven path (positive historical
estimate), `EstimateLimit` returns the confidence-weighted blend of the
two estimates truncated toward zero (the Go conversion `int(...)`), not
rounded to the nearest integer. -/
theorem claim_C1_amended (plan : String) (blocks : List Block)
    (h : 0 < estimateFromHistory blocks) :
    EstimateLimit plan blocks =
      goTrunc ((estimateFromHistory blocks : ℚ) * calculateDynamicWeight blocks +
        (calculateBaseLimit plan blocks : ℚ) * (1 - calculateDynamicWeight blocks)) := by
  unfold EstimateLimit
  dsimp only
  rw [if_pos h, if_pos (calculateBaseLimit_pos plan blocks)]

-- Five identical complete blocks of 13 tokens each: enough history for the
-- data-driven path, zero entries so the base limit uses the default rate.
def c1Blocks : List Block := List.replicate 5 ⟨0, none, 13, 0, false, false⟩

lemma c1Blocks_samples :
    (c1Blocks.filter historyQualifies).map Block.totalTokens = [13, 13, 13, 13, 13] := by
  decide

lemma removeOutliers_c1 : removeOutliers [13, 13, 13, 13, 13] = [13, 13, 13, 13, 13] := by
  have hq1 : calculatePercentile [13, 13, 13, 13, 13] 25 = 13 :=
    calculatePercentile_concrete (c := 2) (by decide) (by norm_num) (by norm_num)
      (by norm_num) (by decide) (by decide)
  have hq3 : calculatePercentile [13, 13, 13, 13, 13] 75 = 13 :=
    calculatePercentile_concrete (c := 4) (by decide) (by norm_num) (by norm_num)
      (by norm_num) (by decide) (by decide)
  have hsort : List.insertionSort (· ≤ ·) ([13, 13, 13, 13, 13] : List ℤ) = [13, 13, 13, 13, 13] := by
    decide
  unfold removeOutliers
  rw [if_neg (by decide)]
  dsimp only
  rw [hsort, hq1, hq3]
  have hg : goTrunc (OutlierIQRMultiplier * (((13 : ℤ) - 13 : ℤ) : ℚ)) = 0 := by
    norm_num [OutlierIQRMultiplier, goTrunc]
  rw [hg]
  decide

lemma estimateFromHistory_c1 : estimateFromHistory c1Blocks = 13 := by
  have hq90 : calculatePercentile [13, 13, 13, 13, 13] HistoricalPercentile = 13 :=
    calculatePercentile_concrete (c := 5) (by decide) (by norm_num [HistoricalPercentile])
      (by norm_num [HistoricalPercentile]) (by norm_num) (by decide) (by decide)
  unfold estimateFromHistory
  rw [c1Blocks_samples]
  dsimp only
  rw [removeOutliers_c1]
  norm_num [MinHistoricalSessions, MinCleanedSessions, hq90]

lemma calculateBaseLimit_c1 : calculateBaseLimit proPlanName c1Blocks = 6750 := by
  decide

lemma calculateDynamicWeight_c1 : calculateDynamicWeight c1Blocks = 3 / 10 := by
  unfold calculateDynamicWeight
  rw [c1Blocks_samples]
  norm_num [WeightSmallSample]

/-- Claim C1 as stated is false: on five complete 13-token blocks the blend
is 13*0.3 + 6750*0.7 = 4728.9, which the code truncates to 4728, while the
claimed rounding to the nearest integer gives 4729. -/
theorem claim_C1_counterexample :
    estimateFromHistory c1Blocks = 13 ∧
    calculateBaseLimit proPlanName c1Blocks = 6750 ∧
    calculateDynamicWeight c1Blocks = 3 / 10 ∧
    EstimateLimit proPlanName c1Blocks = 4728 ∧
    round ((13 : ℚ) * (3 / 10) + (6750 : ℚ) * (1 - 3 / 10)) = 4729 ∧
    (4728 : ℤ) ≠ 4729 := by
  have hEst : EstimateLimit proPlanName c1Blocks = 4728 := by
    rw [claim_C1_amended proPlanName c1Blocks (by rw [estimateFromHistory_c1]; norm_num),
      estimateFromHistory_c1, calculateBaseLimit_c1, calculateDynamicWeight_c1]
    exact goTrunc_eval (by norm_num) (by norm_num) (by norm_num)
  refine ⟨estimateFromHistory_c1, calculateBaseLimit_c1, calculateDynamicWeight_c1, hEst, ?_, by decide⟩
  rw [round_eq]
  exact Int.floor_eq_iff.mpr ⟨by norm_num, by norm_num⟩

/-- Witness for the amended claim C1 at the concrete block list `c1Blocks`. -/
theorem claim_C1_witness :
    EstimateLimit proPlanName c1Blocks =
      goTrunc ((estimateFromHistory c1Blocks : ℚ) * calculateDynamicWeight c1Blocks +
        (calculateBaseLimit proPlanName c1Blocks : ℚ) * (1 - calculateDynamicWeight c1Blocks)) :=
  claim_C1_amended proPlanName c1Blocks (by rw [estimateFromHistory_c1]; norm_num)

/-- Claim C10: for every plan string and every block list (including the
empty one) `EstimateLimit` returns a strictly positive integer. -/
theorem claim_C10 (plan : String) (blocks : List Block) :
    0 < EstimateLimit plan blocks := by
  unfold EstimateLimit
  dsimp only
  split_ifs with h1 h2
  · have hw := calculateDynamicWeight_bounds blocks
    have hd : (1 : ℚ) ≤ (estimateFromHistory blocks : ℚ) := by exact_mod_cast h1
    have hb : (1 : ℚ) ≤ (calculateBaseLimit plan blocks : ℚ) := by exact_mod_cast h2
    have p1 : 0 ≤ ((estimateFromHistory blocks : ℚ) - 1) * calculateDynamicWeight blocks :=
      mul_nonneg (by linarith) hw.1
    have p2 : 0 ≤ ((calculateBaseLimit plan blocks : ℚ) - 1) * (1 - calculateDynamicWeight blocks) :=
      mul_nonneg (by linarith) (by linarith [hw.2])
    have hblend : (1 : ℚ) ≤ (estimateFromHistory blocks : ℚ) * calculateDynamicWeight blocks +
        (calculateBaseLimit plan blocks : ℚ) * (1 - calculateDynamicWeight blocks) := by
      nlinarith [p1, p2]
    exact lt_of_lt_of_le zero_lt_one (one_le_goTrunc hblend)
  · exact h1
  · exact calculateBaseLimit_pos plan blocks

/-- Claim C6: when the session consumption equals a positive ceiling fed in
as the limit, the derived percentage is exactly 100 and the status is OK or
WARNING, never LIMIT EXCEEDED: the limit check is the strict comparison
`used > limit` and the remaining amount is 0, so the depletion projection
falls back to the fixed session end. -/
theorem claim_C6 (block : Block) (allBlocks : List Block) (limit : ℤ)
    (ctime now todayCost : ℚ) (hpos : 0 < limit) (hused : block.totalTokens = limit) :
    (NewSession block allBlocks limit ctime todayCost).metrics.tokens.percentage = 100 ∧
    GetStatus (NewSession block allBlocks limit ctime todayCost) now ≠ "LIMIT EXCEEDED" ∧
    (GetStatus (NewSession block allBlocks limit ctime todayCost) now = "OK" ∨
      GetStatus (NewSession block allBlocks limit ctime todayCost) now = "WARNING") := by
  have hperc : (NewSession block allBlocks limit ctime todayCost).metrics.tokens.percentage = 100 := by
    show (calculateTokenMetrics block limit).percentage = 100
    unfold calculateTokenMetrics
    dsimp only
    rw [if_pos hpos, hused, div_self (by exact_mod_cast ne_of_gt hpos), one_mul]
  have hnotexceeded :
      ¬ ((NewSession block allBlocks limit ctime todayCost).metrics.tokens.limit <
        (NewSession block allBlocks limit ctime todayCost).metrics.tokens.used) := by
    show ¬ (limit < block.totalTokens)
    rw [hused]
    exact lt_irrefl limit
  have hrem : (NewSession block allBlocks limit ctime todayCost).metrics.tokens.remaining = 0 := by
    show limit - block.totalTokens = 0
    rw [hused, sub_self]
  have hpred : GetPredictedEndTime (NewSession block allBlocks limit ctime todayCost) now =
      (NewSession block allBlocks limit ctime todayCost).endTime := by
    unfold GetPredictedEndTime
    rw [if_neg]
    rintro ⟨-, hr⟩
    rw [hrem] at hr
    exact lt_irrefl 0 hr
  have hstatus : GetStatus (NewSession block allBlocks limit ctime todayCost) now = "OK" := by
    unfold GetStatus
    rw [if_neg hnotexceeded, hpred, if_neg (lt_irrefl _)]
  exact ⟨hperc, by rw [hstatus]; decide, Or.inl hstatus⟩

-- The concrete session block for the claim C6 witness: an active block that
-- has consumed exactly the 7000-token ceiling.
def c6Block : Block := ⟨0, none, 7000, 10, true, false⟩

/-- Witness for claim C6 at a concrete session exactly at its ceiling. -/
theorem claim_C6_witness :
    (NewSession c6Block [c6Block] 7000 0 0).metrics.tokens.percentage = 100 ∧
    GetStatus (NewSession c6Block [c6Block] 7000 0 0) 100 ≠ "LIMIT EXCEEDED" ∧
    (GetStatus (NewSession c6Block [c6Block] 7000 0 0) 100 = "OK" ∨
      GetStatus (NewSession c6Block [c6Block] 7000 0 0) 100 = "WARNING") :=
  claim_C6 c6Block [c6Block] 7000 0 100 0 (by norm_num) rfl

lemma calculate_singleton (b : Block) (now : ℚ) (hgap : b.isGap = false) :
    BurnRateCalculator.Calculate [b] now =
      calculateBlockTokensInWindow b now (now - 60) / 60 := by
  unfold BurnRateCalculator.Calculate
  rw [if_neg (by simp)]
  simp only [List.map_cons, List.map_nil, List.sum_cons, List.sum_nil, add_zero, hgap,
    Bool.false_eq_true, if_false, BurnRateWindowMinutes]

lemma cbtw_outside (b : Block) (now : ℚ)
    (h : getBlockEndTime b now ≤ now - 60 ∨ now ≤ b.startTime) :
    calculateBlockTokensInWindow b now (now - 60) = 0 := by
  unfold calculateBlockTokensInWindow
  dsimp only
  split_ifs with h1 h2 h3 <;> try rfl
  exfalso
  rw [not_le] at h2
  have hmin1 := min_le_left (getBlockEndTime b now) now
  have hmin2 := min_le_right (getBlockEndTime b now) now
  have hmax1 := le_max_left b.startTime (now - 60)
  have hmax2 := le_max_right b.startTime (now - 60)
  rcases h with hcase | hcase
  · linarith
  · linarith

lemma cbtw_inside (b : Block) (now : ℚ)
    (hws : now - 60 ≤ b.startTime) (hen : getBlockEndTime b now ≤ now)
    (hse : b.startTime < getBlockEndTime b now) :
    calculateBlockTokensInWindow b now (now - 60) = (b.totalTokens : ℚ) := by
  unfold calculateBlockTokensInWindow
  dsimp only
  rw [if_neg (not_lt.mpr (by linarith)), min_eq_left hen, max_eq_left hws,
    if_neg (not_le.mpr hse), if_pos (by linarith : (0 : ℚ) < getBlockEndTime b now - b.startTime)]
  rw [div_self (by linarith : getBlockEndTime b now - b.startTime ≠ 0), mul_one]

lemma cbtw_overlap (b : Block) (now : ℚ)
    (hov : max b.startTime (now - 60) < min (getBlockEndTime b now) now)
    (hnf : min (getBlockEndTime b now) now - max b.startTime (now - 60) <
      getBlockEndTime b now - b.startTime) :
    calculateBlockTokensInWindow b now (now - 60) =
      (b.totalTokens : ℚ) *
        ((min (getBlockEndTime b now) now - max b.startTime (now - 60)) /
          (getBlockEndTime b now - b.startTime)) := by
  have hd : (0 : ℚ) < getBlockEndTime b now - b.startTime := by
    have : (0 : ℚ) < min (getBlockEndTime b now) now - max b.startTime (now - 60) := by linarith
    linarith
  unfold calculateBlockTokensInWindow
  dsimp only
  rw [if_neg, if_neg (not_le.mpr hov), if_pos hd]
  rw [not_lt]
  have hmin := min_le_left (getBlockEndTime b now) now
  have hmax := le_max_right b.startTime (now - 60)
  linarith

/-- Claim C5 as stated is false in two degenerate cases: a zero-duration
interval lying fully inside the window contributes 0, not totalConsumed/60
(the zero-duration guard wins), and a partially overlapping interval with
totalConsumed = 0 yields rate 0, which is not strictly between 0 and the
full-overlap value.  Block A below is [970,970] with 60 tokens, block B is
[900,970] with 0 tokens, the window is [940,1000]. -/
theorem claim_C5_counterexample :
    ((⟨970, some 970, 60, 0, false, false⟩ : Block).isGap = false ∧
      (1000 : ℚ) - 60 ≤ (⟨970, some 970, 60, 0, false, false⟩ : Block).startTime ∧
      getBlockEndTime (⟨970, some 970, 60, 0, false, false⟩ : Block) 1000 ≤ 1000 ∧
      BurnRateCalculator.Calculate [(⟨970, some 970, 60, 0, false, false⟩ : Block)] 1000 = 0 ∧
      BurnRateCalculator.Calculate [(⟨970, some 970, 60, 0, false, false⟩ : Block)] 1000 ≠
        (((⟨970, some 970, 60, 0, false, false⟩ : Block).totalTokens : ℚ)) / 60) ∧
    ((⟨900, some 970, 0, 0, false, false⟩ : Block).isGap = false ∧
      max (⟨900, some 970, 0, 0, false, false⟩ : Block).startTime ((1000 : ℚ) - 60) <
        min (getBlockEndTime (⟨900, some 970, 0, 0, false, false⟩ : Block) 1000) 1000 ∧
      min (getBlockEndTime (⟨900, some 970, 0, 0, false, false⟩ : Block) 1000) 1000 -
          max (⟨900, some 970, 0, 0, false, false⟩ : Block).startTime ((1000 : ℚ) - 60) <
        getBlockEndTime (⟨900, some 970, 0, 0, false, false⟩ : Block) 1000 -
          (⟨900, some 970, 0, 0, false, false⟩ : Block).startTime ∧
      ¬ (0 < BurnRateCalculator.Calculate [(⟨900, some 970, 0, 0, false, false⟩ : Block)] 1000)) := by
  have hA : BurnRateCalculator.Calculate [(⟨970, some 970, 60, 0, false, false⟩ : Block)] 1000 = 0 := by
    rw [calculate_singleton _ _ rfl]
    unfold calculateBlockTokensInWindow getBlockEndTime
    norm_num
  have hB : BurnRateCalculator.Calculate [(⟨900, some 970, 0, 0, false, false⟩ : Block)] 1000 = 0 := by
    rw [calculate_singleton _ _ rfl]
    unfold calculateBlockTokensInWindow getBlockEndTime
    norm_num [max_def, min_def]
  refine ⟨⟨rfl, by norm_num, ?_, hA, by rw [hA]; norm_num⟩, ⟨rfl, ?_, ?_, by rw [hB]; norm_num⟩⟩
  · show (970 : ℚ) ≤ 1000
    norm_num
  · show max (900 : ℚ) ((1000 : ℚ) - 60) < min (970 : ℚ) 1000
    rw [max_def, min_def]
    norm_num
  · show min (970 : ℚ) 1000 - max (900 : ℚ) ((1000 : ℚ) - 60) < (970 : ℚ) - 900
    rw [max_def, min_def]
    norm_num

/-- Claim C5 amended: for a single non-gap interval (span `[startTime, e]`
with `e` the effective end used by the code) the one-hour burn rate is 0
when the span lies outside the window `[now-60, now]`; it equals
totalConsumed/60 when the span lies fully inside the window AND has
positive duration; and for a strictly partial positive overlap AND
positive totalConsumed it equals totalConsumed times the overlap fraction
divided by 60, strictly between 0 and the full-overlap value. -/
theorem claim_C5_amended (b : Block) (now : ℚ) (hgap : b.isGap = false) :
    ((getBlockEndTime b now ≤ now - 60 ∨ now ≤ b.startTime) →
      BurnRateCalculator.Calculate [b] now = 0) ∧
    (now - 60 ≤ b.startTime → getBlockEndTime b now ≤ now →
      b.startTime < getBlockEndTime b now →
      BurnRateCalculator.Calculate [b] now = (b.totalTokens : ℚ) / 60) ∧
    (max b.startTime (now - 60) < min (getBlockEndTime b now) now →
      min (getBlockEndTime b now) now - max b.startTime (now - 60) <
        getBlockEndTime b now - b.startTime →
      0 < b.totalTokens →
      BurnRateCalculator.Calculate [b] now =
        (b.totalTokens : ℚ) *
          ((min (getBlockEndTime b now) now - max b.startTime (now - 60)) /
            (getBlockEndTime b now - b.startTime)) / 60 ∧
      0 < BurnRateCalculator.Calculate [b] now ∧
      BurnRateCalculator.Calculate [b] now < (b.totalTokens : ℚ) / 60) := by
  refine ⟨fun h => ?_, fun h1 h2 h3 => ?_, fun hov hnf htok => ?_⟩
  · rw [calculate_singleton b now hgap, cbtw_outside b now h, zero_div]
  · rw [calculate_singleton b now hgap, cbtw_inside b now h1 h2 h3]
  · have heq : BurnRateCalculator.Calculate [b] now =
        (b.totalTokens : ℚ) *
          ((min (getBlockEndTime b now) now - max b.startTime (now - 60)) /
            (getBlockEndTime b now - b.startTime)) / 60 := by
      rw [calculate_singleton b now hgap, cbtw_overlap b now hov hnf]
    have htokq : (0 : ℚ) < (b.totalTokens : ℚ) := by exact_mod_cast htok
    have hodpos : (0 : ℚ) < min (getBlockEndTime b now) now - max b.startTime (now - 60) := by
      linarith
    have hdpos : (0 : ℚ) < getBlockEndTime b now - b.startTime := by linarith
    have hfrac : (0 : ℚ) <
        (min (getBlockEndTime b now) now - max b.startTime (now - 60)) /
          (getBlockEndTime b now - b.startTime) := div_pos hodpos hdpos
    have hfraclt : (min (getBlockEndTime b now) now - max b.startTime (now - 60)) /
        (getBlockEndTime b now - b.startTime) < 1 := (div_lt_one hdpos).mpr hnf
    refine ⟨heq, ?_, ?_⟩
    · rw [heq]
      exact div_pos (mul_pos htokq hfrac) (by norm_num)
    · rw [heq]
      have : (b.totalTokens : ℚ) *
          ((min (getBlockEndTime b now) now - max b.startTime (now - 60)) /
            (getBlockEndTime b now - b.startTime)) < (b.totalTokens : ℚ) :=
        mul_lt_of_lt_one_right htokq hfraclt
      exact div_lt_div_of_pos_right this (by norm_num)

/-- Witness for the amended claim C5: the strict-partial-overlap clause at
the interval [900,970] with 60 tokens, window [940,1000]. -/
theorem claim_C5_witness :
    BurnRateCalculator.Calculate [(⟨900, some 970, 60, 0, false, false⟩ : Block)] 1000 =
      ((⟨900, some 970, 60, 0, false, false⟩ : Block).totalTokens : ℚ) *
        ((min (getBlockEndTime (⟨900, some 970, 60, 0, false, false⟩ : Block) 1000) 1000 -
            max (⟨900, some 970, 60, 0, false, false⟩ : Block).startTime (1000 - 60)) /
          (getBlockEndTime (⟨900, some 970, 60, 0, false, false⟩ : Block) 1000 -
            (⟨900, some 970, 60, 0, false, false⟩ : Block).startTime)) / 60 ∧
    0 < BurnRateCalculator.Calculate [(⟨900, some 970, 60, 0, false, false⟩ : Block)] 1000 ∧
    BurnRateCalculator.Calculate [(⟨900, some 970, 60, 0, false, false⟩ : Block)] 1000 <
      ((⟨900, some 970, 60, 0, false, false⟩ : Block).totalTokens : ℚ) / 60 :=
  (claim_C5_amended (⟨900, some 970, 60, 0, false, false⟩ : Block) 1000 rfl).2.2
    (by show max (900 : ℚ) (1000 - 60) < min (970 : ℚ) 1000
        rw [max_def, min_def]; norm_num)
    (by show min (970 : ℚ) 1000 - max (900 : ℚ) (1000 - 60) < (970 : ℚ) - 900
        rw [max_def, min_def]; norm_num)
    (by norm_num)
